import Mathlib

/-!
Verification of the Trip Logger HOS/ELD core logic.

Shallow embedding of the compliance and scheduling functions of
`backend/trips/utils.py`, the entry validation of
`backend/trips/serializers.py`, and the rollup recomputation of
`backend/trips/views.py`.

Modelling conventions:
* Machine floats and `Decimal` values are modelled as exact rationals.
* The Python builtin `round(x, 2)` is modelled by `round2` below
  (round half to even at two decimal places; exact on all values whose
  float representation is itself a two-decimal value, which covers every
  value produced by the repository's `DecimalField(decimal_places=2)`
  columns and its `round(_, 2)` outputs).
* Calendar time is measured in hours as a rational; the calendar day of a
  time `t` is `⌊t / 24⌋`, matching `datetime.date()` at hour granularity.
* Calendar days are integers (days since an arbitrary epoch).
* Strings that are purely presentational (remarks, stop descriptions,
  addresses, route geometry) are omitted from the records.
-/

namespace TripLogger

/-- Round a rational to the nearest integer, ties going to the even
integer.  This is the rounding mode of the Python builtin `round`. -/
def rhe (q : ℚ) : ℤ :=
  let f := ⌊q⌋
  let r := q - (f : ℚ)
  if r < 1/2 then f
  else if 1/2 < r then f + 1
  else if f % 2 = 0 then f else f + 1

/-- Model of Python `round(x, 2)`: round to the nearest multiple of 1/100,
ties to even. -/
def round2 (q : ℚ) : ℚ := (rhe (q * 100) : ℚ) / 100

/-- A rational is a "cent" value when it is an integer multiple of 1/100,
i.e. it has at most two decimal places.  All `DecimalField(decimal_places=2)`
values of the data model are cent values. -/
def isCent (q : ℚ) : Prop := ∃ k : ℤ, q = (k : ℚ) / 100

/-- Duty status choices shared by `DailyLog` and `LogEntry`
(`models.py`, `STATUS_CHOICES`). -/
inductive DutyStatus
  | off_duty
  | sleeper_berth
  | driving
  | on_duty_not_driving
deriving DecidableEq, Repr

/-- Result record of `calculate_eld_compliance` (`utils.py` 390-417).
The `recommendations` list of strings is presentational and omitted. -/
structure ComplianceResult where
  compliant : Bool
  cycles_needed : ℤ
  remaining_cycle_hours : ℚ
  total_break_time : ℚ
deriving DecidableEq, Repr

/-- Embedding of `calculate_eld_compliance` (`utils.py` 390-417). -/
def calculate_eld_compliance (trip_duration_hours cycle_used_hours : ℚ) :
    ComplianceResult :=
  let remaining_cycle_hours := 11 - cycle_used_hours
  let cycles_needed := ⌈trip_duration_hours / 11⌉
  let total_break_time := ((cycles_needed : ℚ) - 1) * 10
  { compliant := decide (trip_duration_hours ≤ remaining_cycle_hours) ||
      decide (1 < cycles_needed)
    cycles_needed := cycles_needed
    remaining_cycle_hours := remaining_cycle_hours
    total_break_time := total_break_time }

/-- Stop categories of the stop planner (`utils.py` 251-300). -/
inductive StopType
  | pickup
  | dropoff
  | rest_break
  | fuel
deriving DecidableEq, Repr

/-- A planned stop.  The `description` string is presentational and
omitted. -/
structure Stop where
  type : StopType
  duration : ℚ
  mandatory : Bool
deriving DecidableEq, Repr

/-- Embedding of `calculate_trip_stops` (`utils.py` 251-300).
`int(x // 8)` on a Python float equals `Int.toNat ⌊x / 8⌋` composed with
`range` (a negative count yields no stops), which is `List.replicate
(⌊x / 8⌋.toNat)` here. -/
def calculate_trip_stops (driving_time_hours total_distance : ℚ) : List Stop :=
  [⟨StopType.pickup, 1, true⟩, ⟨StopType.dropoff, 1, true⟩]
    ++ List.replicate (⌊driving_time_hours / 8⌋.toNat) ⟨StopType.rest_break, 1/2, true⟩
    ++ List.replicate (⌊total_distance / 1000⌋.toNat) ⟨StopType.fuel, 1/2, true⟩

/-- Embedding of `LogEntrySerializer.validate` (`serializers.py` 71-83) for
payloads that carry both `start_hour` and `duration_hours` (the checks are
skipped for absent fields and both fields are present on entry creation).
Error strings are abbreviated. -/
def logentry_validate (start_hour duration_hours : ℚ) : Except String Unit :=
  if start_hour < 0 ∨ 24 ≤ start_hour then
    Except.error "start_hour must be within 0-24"
  else if duration_hours ≤ 0 then
    Except.error "duration_hours must be greater than 0"
  else if 24 < start_hour + duration_hours then
    Except.error "entry crosses midnight"
  else Except.ok ()

/-- One emitted per-day record of `generate_daily_logs` (`utils.py` 322-387).
The `remarks` string and the 1-indexed `day_count` (used only inside the
remarks text) are presentational and omitted. -/
structure DayRec where
  day : ℤ
  driving_hours : ℚ
  off_duty_hours : ℚ
  status : DutyStatus
deriving DecidableEq, Repr

/-- Fuelled loop body of `generate_daily_logs` (`utils.py` 343-386).
The Python `while remaining_trip_time > 0` loop is not structurally
recursive, so it is embedded with a fuel argument that bounds the number of
iterations; `generate_daily_logs_total` proves that the fuel chosen by
`generate_daily_logs` is never exhausted, so the `none` branch is
unreachable there.  State per iteration: remaining trip time, remaining
cycle hours, simulated clock (hours). -/
def generate_daily_logs_go :
    ℕ → ℚ → ℚ → ℚ → Option (List DayRec)
  | 0, remaining_trip_time, _, _ =>
      if remaining_trip_time ≤ 0 then some [] else none
  | fuel + 1, remaining_trip_time, remaining_cycle_hours, current_time =>
      if remaining_trip_time ≤ 0 then some []
      else if remaining_cycle_hours ≤ 0 then
        -- 10-hour break day: new cycle starts, no trip time consumed
        (generate_daily_logs_go fuel remaining_trip_time 11
            (current_time + 10)).map
          (fun rest =>
            ⟨⌊current_time / 24⌋, 0, 10, DutyStatus.off_duty⟩ :: rest)
      else
        let hours_available :=
          min 11 (min remaining_cycle_hours remaining_trip_time)
        let hours_driving := min hours_available 11
        let off_duty_hours : ℚ := 10
        (generate_daily_logs_go fuel (remaining_trip_time - hours_driving)
            (remaining_cycle_hours - hours_driving)
            (current_time + (hours_driving + off_duty_hours))).map
          (fun rest =>
            ⟨⌊current_time / 24⌋, round2 hours_driving, round2 off_duty_hours,
              if 0 < hours_driving then DutyStatus.driving
              else DutyStatus.off_duty⟩ :: rest)

/-- Iteration bound used by `generate_daily_logs`:
`generate_daily_logs_total` proves it is always sufficient. -/
def fuelFor (trip_duration_hours : ℚ) : ℕ :=
  3 * (⌈trip_duration_hours / 11⌉.toNat) + 5

/-- The simulation loop of `generate_daily_logs` run to completion from an
arbitrary loop state. -/
def simulate_days (current_time remaining_trip_time remaining_cycle_hours : ℚ) :
    List DayRec :=
  (generate_daily_logs_go (fuelFor remaining_trip_time) remaining_trip_time
      remaining_cycle_hours current_time).getD []

/-- Embedding of `generate_daily_logs` (`utils.py` 322-387).  The
`driver_name` argument of the source is unused by the loop and omitted. -/
def generate_daily_logs (trip_start_time trip_duration_hours
    cycle_used_hours : ℚ) : List DayRec :=
  simulate_days trip_start_time trip_duration_hours (11 - cycle_used_hours)

/-- Sum of the emitted `driving_hours` fields of a list of daily logs. -/
def driving_total (logs : List DayRec) : ℚ :=
  (logs.map DayRec.driving_hours).sum

/-- An individual activity entry within a daily log (`models.py`,
`LogEntry`).  `remarks` and timestamps are presentational and omitted. -/
structure LogEntry where
  status : DutyStatus
  start_hour : ℚ
  duration_hours : ℚ
deriving DecidableEq, Repr

/-- Per-day totals builder of `compute_cycle_remaining` (`utils.py`
509-519): classify each entry's duration into on-duty
(driving, on_duty_not_driving) or off-duty (off_duty, sleeper_berth)
accumulators.  The source's `elif` covers exactly the remaining two of the
four statuses, so it is the `else` branch here.  Returns (on, off). -/
def day_totals (entries : List LogEntry) : ℚ × ℚ :=
  entries.foldl
    (fun acc e =>
      if e.status = DutyStatus.driving ∨ e.status = DutyStatus.on_duty_not_driving then
        (acc.1 + e.duration_hours, acc.2)
      else
        (acc.1, acc.2 + e.duration_hours))
    (0, 0)

/-- Threshold under which a day's on-duty total is treated as zero in the
restart scan (`utils.py` 533: `on <= 1e-6`). -/
def onEps : ℚ := 1 / 1000000

/-- One iteration of the 34-hour-restart scan of `compute_cycle_remaining`
(`utils.py` 529-544).  State: (running off-duty sum of the current streak,
latest restart day found).  `dd d` is the (on, off) total of day `d`. -/
def restart_step (dd : ℤ → ℚ × ℚ) (st : ℚ × Option ℤ) (d : ℤ) : ℚ × Option ℤ :=
  let off_sum := if (dd d).1 ≤ onEps then st.1 + (dd d).2 else 0
  (off_sum, if 34 ≤ off_sum then some d else st.2)

/-- The list of `n` consecutive calendar days starting at `lb`. -/
def days_from (lb : ℤ) (n : ℕ) : List ℤ :=
  (List.range n).map (fun i : ℕ => lb + (i : ℤ))

/-- Result record of `compute_cycle_remaining` (`utils.py` 561-570).  The
source returns the effective summation start under the key
`window_start`; `trip_id` and the `cycle` tag are omitted. -/
structure CycleResult where
  window_start : ℤ
  window_end : ℤ
  used_hours : ℚ
  remaining_hours : ℚ
  restart_detected : Bool
  restart_end_day : Option ℤ
deriving DecidableEq, Repr

/-- Embedding of `compute_cycle_remaining` (`utils.py` 477-570) for a trip
that exists.  `history d` is the list of stored entries of the trip's
daily log for calendar day `d` (no daily log stored means `[]`, matching
`day_data.get(key, {})` defaulting to zero totals). -/
def compute_cycle_remaining (history : ℤ → List LogEntry) (as_of_date : ℤ) :
    CycleResult :=
  let dd := fun d => day_totals (history d)
  let window_start := as_of_date - 7
  let lookback_start := as_of_date - 10
  let scan := (days_from lookback_start 11).foldl (restart_step dd) (0, none)
  let restart_after_day := scan.2
  let sum_start :=
    match restart_after_day with
    | some r => if window_start ≤ r then r + 1 else window_start
    | none => window_start
  let used_hours :=
    ((days_from sum_start (as_of_date + 1 - sum_start).toNat).map
        (fun d => (dd d).1)).sum
  { window_start := sum_start
    window_end := as_of_date
    used_hours := round2 used_hours
    remaining_hours := round2 (max 0 (70 - used_hours))
    restart_detected := restart_after_day.isSome
    restart_end_day := restart_after_day }

/-- Specification-side predicate (written from the claim's words): within
the scanned range `[lb, d]`, the streak of consecutive days ending at `d`
whose on-duty total is at most `1e-6` has accumulated at least 34 off-duty
hours, as witnessed by a streak bottom `j`. -/
def on_streak_ge_34 (dd : ℤ → ℚ × ℚ) (lb d j : ℤ) : Prop :=
  lb ≤ j ∧ j ≤ d ∧ (∀ i, j ≤ i → i ≤ d → (dd i).1 ≤ onEps) ∧
    34 ≤ ∑ i in Finset.Icc j d, (dd i).2

/-- Specification-side predicate (written from the claim's words): day `d`
is recorded as a restart point during the scan from `lb` through
`as_of`. -/
def is_restart_day (dd : ℤ → ℚ × ℚ) (lb as_of d : ℤ) : Prop :=
  lb ≤ d ∧ d ≤ as_of ∧ ∃ j, on_streak_ge_34 dd lb d j

/-- State of the restart scan after processing the first `n` days starting
at `lb` (recursion companion of the `foldl` in
`compute_cycle_remaining`). -/
def scan_state (dd : ℤ → ℚ × ℚ) (lb : ℤ) : ℕ → ℚ × Option ℤ
  | 0 => (0, none)
  | n + 1 => restart_step dd (scan_state dd lb n) (lb + (n : ℤ))

/-- Offset (from `lb`) of the first day of the streak of consecutive
near-zero on-duty days that is still running after `n` scanned days;
`n` itself when the streak is empty. -/
def streak_start (dd : ℤ → ℚ × ℚ) (lb : ℤ) : ℕ → ℕ
  | 0 => 0
  | n + 1 => if (dd (lb + (n : ℤ))).1 ≤ onEps then streak_start dd lb n else n + 1

/-- Day offset `m` qualifies as a restart point during the scan. -/
def scan_qualifies (dd : ℤ → ℚ × ℚ) (lb : ℤ) (m : ℕ) : Prop :=
  34 ≤ (scan_state dd lb (m + 1)).1

/-- A location as consumed by `calculate_trip_route` (`utils.py` 159-185):
a possibly-missing record with possibly-missing latitude/longitude.
The address string is presentational and omitted. -/
structure Loc where
  lat : Option ℚ
  lon : Option ℚ
deriving DecidableEq, Repr

/-- The coordinate validation test of `calculate_trip_route` (`utils.py`
181-182): `not loc or loc.get('lat') in [0.0, None] or loc.get('lon') in
[0.0, None]`. -/
def invalid_loc : Option Loc → Bool
  | none => true
  | some l =>
      l.lat == none || l.lat == some 0 || l.lon == none || l.lon == some 0

/-- The coordinate validation loop of `calculate_trip_route` (`utils.py`
180-185), checking current, pickup and dropoff in order and raising a
descriptive `ValueError` on the first invalid one. -/
def validate_locations (current pickup dropoff : Option Loc) :
    Except String Unit :=
  if invalid_loc current then
    Except.error "Invalid coordinates for current location"
  else if invalid_loc pickup then
    Except.error "Invalid coordinates for pickup location"
  else if invalid_loc dropoff then
    Except.error "Invalid coordinates for dropoff location"
  else Except.ok ()

/-- Specification-side predicate (written from the claim's words): the
location's latitude and longitude are BOTH zero or unset. -/
def both_zero_unset : Option Loc → Prop
  | none => True
  | some l => (l.lat = none ∨ l.lat = some 0) ∧ (l.lon = none ∨ l.lon = some 0)

/-- Route summary returned by the route provider
(`OpenRouteServiceClient.get_route`, `utils.py` 52-118): total distance in
miles and total driving time in hours.  Geometry and segment details are
presentational and omitted. -/
structure RouteInfo where
  total_distance : ℚ
  total_driving_time : ℚ
deriving DecidableEq, Repr

/-- A route provider: given (lon, lat) start and end coordinates it either
returns a route summary or fails (network or parse error, modelled as the
error message of the raised exception). -/
def RouteProvider : Type :=
  ℚ × ℚ → ℚ × ℚ → Except String RouteInfo

/-- Embedding of `calculate_fuel_requirement` (`utils.py` 303-319); the
source's default `mpg=6.5` is fixed here since no caller overrides it. -/
def calculate_fuel_requirement (distance : ℚ) : ℚ × ℚ :=
  let mpg : ℚ := 13 / 2
  let gallons_needed := distance / mpg
  (round2 gallons_needed, round2 (gallons_needed * (7 / 2)))

/-- Result record of `calculate_trip_route` (`utils.py` 216-240).
Segments, coordinates and the `api_used` flag are presentational and
omitted; `fuel_required` keeps (gallons, estimated cost). -/
structure TripRoute where
  total_distance : ℚ
  total_driving_time : ℚ
  total_trip_time : ℚ
  stops : List Stop
  fuel_required : ℚ × ℚ
deriving DecidableEq, Repr

/-- Sum of the durations of a list of stops. -/
def stops_duration_sum (stops : List Stop) : ℚ :=
  (stops.map Stop.duration).sum

/-- Embedding of `calculate_trip_route` (`utils.py` 159-247).  The
`average_speed` parameter (default 55 mph) is carried over from the source,
where it is never read.  Provider failures are re-raised by the source's
`except` blocks, which is Except-bind propagation here. -/
def calculate_trip_route (provider : RouteProvider)
    (current_location pickup_location dropoff_location : Option Loc)
    (average_speed : ℚ) : Except String TripRoute :=
  match validate_locations current_location pickup_location dropoff_location with
  | Except.error m => Except.error m
  | Except.ok _ => do
      let c := current_location.getD ⟨none, none⟩
      let p := pickup_location.getD ⟨none, none⟩
      let d := dropoff_location.getD ⟨none, none⟩
      let current_to_pickup ←
        provider (c.lon.getD 0, c.lat.getD 0) (p.lon.getD 0, p.lat.getD 0)
      let pickup_to_dropoff ←
        provider (p.lon.getD 0, p.lat.getD 0) (d.lon.getD 0, d.lat.getD 0)
      let total_distance :=
        round2 (current_to_pickup.total_distance + pickup_to_dropoff.total_distance)
      let total_driving_time :=
        current_to_pickup.total_driving_time + pickup_to_dropoff.total_driving_time
      let stops := calculate_trip_stops total_driving_time total_distance
      let total_trip_time := total_driving_time + stops_duration_sum stops
      pure
        { total_distance := total_distance
          total_driving_time := round2 total_driving_time
          total_trip_time := round2 total_trip_time
          stops := stops
          fuel_required := calculate_fuel_requirement total_distance }

/-- A route provider that always fails, modelling a network error wrapped
by `get_route` (`utils.py` 113-115). -/
def failing_provider : RouteProvider :=
  fun _ _ => Except.error "Failed to calculate route: network error"

/-- A route provider that always succeeds with a fixed summary. -/
def ok_provider : RouteProvider :=
  fun _ _ => Except.ok ⟨100, 2⟩

/-- A daily log row as touched by the entry endpoints (`models.py`,
`DailyLog`): its calendar day, its two aggregate fields and its owned
entries.  The status/remarks fields are untouched by the rollup and
omitted. -/
structure DailyLogRec where
  day : ℤ
  driving_hours : ℚ
  off_duty_hours : ℚ
  entries : List LogEntry
deriving DecidableEq, Repr

/-- The accumulation loop of `LogEntryViewSet._recompute_rollup`
(`views.py` 193-204): one pass over the entries, adding `driving` durations
to the first component and every other duration to the second. -/
def rollup_pair (entries : List LogEntry) : ℚ × ℚ :=
  entries.foldl
    (fun acc e =>
      if e.status = DutyStatus.driving then (acc.1 + e.duration_hours, acc.2)
      else (acc.1, acc.2 + e.duration_hours))
    (0, 0)

/-- Embedding of `LogEntryViewSet._recompute_rollup` (`views.py` 193-204):
overwrite the aggregate fields from the current entries. -/
def recompute_rollup (dl : DailyLogRec) : DailyLogRec :=
  { dl with
    driving_hours := (rollup_pair dl.entries).1
    off_duty_hours := (rollup_pair dl.entries).2 }

/-- Embedding of `LogEntryViewSet.perform_create` (`views.py` 167-174):
reject edits of past days, otherwise store the new entry and recompute the
rollup. -/
def perform_create (today : ℤ) (dl : DailyLogRec) (e : LogEntry) :
    Except String DailyLogRec :=
  if dl.day < today then Except.error "Cannot modify a past day log"
  else Except.ok (recompute_rollup { dl with entries := dl.entries ++ [e] })

/-- Embedding of `LogEntryViewSet.perform_update` (`views.py` 176-183):
the entry at position `i` is replaced by `e`. -/
def perform_update (today : ℤ) (dl : DailyLogRec) (i : ℕ) (e : LogEntry) :
    Except String DailyLogRec :=
  if dl.day < today then Except.error "Cannot modify a past day log"
  else Except.ok (recompute_rollup { dl with entries := dl.entries.set i e })

/-- Embedding of `LogEntryViewSet.perform_destroy` (`views.py` 185-191):
the entry at position `i` is deleted. -/
def perform_destroy (today : ℤ) (dl : DailyLogRec) (i : ℕ) :
    Except String DailyLogRec :=
  if dl.day < today then Except.error "Cannot modify a past day log"
  else Except.ok (recompute_rollup { dl with entries := dl.entries.eraseIdx i })

/-- Sum of the durations of a list of entries. -/
def entries_duration_sum (l : List LogEntry) : ℚ :=
  (l.map LogEntry.duration_hours).sum

/-- Specification-side invariant (written from the claim's words): the
aggregates equal the sums over the current entries, with every non-driving
status accumulated into `off_duty_hours`. -/
def rollup_invariant (dl : DailyLogRec) : Prop :=
  dl.driving_hours =
    entries_duration_sum (dl.entries.filter
      (fun e => e.status == DutyStatus.driving)) ∧
  dl.off_duty_hours =
    entries_duration_sum (dl.entries.filter
      (fun e => !(e.status == DutyStatus.driving)))

/-! ## Basic lemmas about the numeric model -/

theorem round2_cent {q : ℚ} (h : isCent q) : round2 q = q := by
  obtain ⟨k, rfl⟩ := h
  have h100 : ((k : ℚ) / 100) * 100 = (k : ℚ) := by field_simp
  unfold round2 rhe
  rw [h100]
  norm_num

theorem isCent_intCast (k : ℤ) : isCent (k : ℚ) :=
  ⟨100 * k, by push_cast; ring⟩

theorem isCent_add {a b : ℚ} (ha : isCent a) (hb : isCent b) :
    isCent (a + b) := by
  obtain ⟨j, rfl⟩ := ha
  obtain ⟨k, rfl⟩ := hb
  exact ⟨j + k, by push_cast; ring⟩

theorem isCent_sub {a b : ℚ} (ha : isCent a) (hb : isCent b) :
    isCent (a - b) := by
  obtain ⟨j, rfl⟩ := ha
  obtain ⟨k, rfl⟩ := hb
  exact ⟨j - k, by push_cast; ring⟩

theorem isCent_min {a b : ℚ} (ha : isCent a) (hb : isCent b) :
    isCent (min a b) := by
  rcases le_total a b with h | h
  · rwa [min_eq_left h]
  · rwa [min_eq_right h]

theorem isCent_max {a b : ℚ} (ha : isCent a) (hb : isCent b) :
    isCent (max a b) := by
  rcases le_total a b with h | h
  · rwa [max_eq_right h]
  · rwa [max_eq_left h]

theorem isCent_listSum {l : List ℚ} (h : ∀ x ∈ l, isCent x) :
    isCent l.sum := by
  induction l with
  | nil => exact ⟨0, by norm_num⟩
  | cons a t ih =>
      rw [List.sum_cons]
      exact isCent_add (h a (List.mem_cons_self a t))
        (ih fun x hx => h x (List.mem_cons_of_mem a hx))

/-! ## C5: compliance checker -/

/-- C5: `calculate_eld_compliance` returns `remaining_cycle_hours = 11 -
cycle_used` (possibly negative), `cycles_needed = ceil(trip_duration / 11)`
(characterised by its Galois property), `total_break_time =
(cycles_needed - 1) * 10` hours, and `compliant` true exactly when
`trip_duration <= remaining_cycle_hours` or `cycles_needed > 1`;
trip durations 8, 11, 11.01, 22, 25 need 1, 1, 2, 2, 3 cycles
respectively, with 20.0 hours of break time in the last case. -/
theorem claim_c5_compliance_checker :
    (∀ d c : ℚ,
      (calculate_eld_compliance d c).remaining_cycle_hours = 11 - c ∧
      (calculate_eld_compliance d c).cycles_needed = ⌈d / 11⌉ ∧
      (∀ n : ℤ, (calculate_eld_compliance d c).cycles_needed ≤ n ↔ d ≤ 11 * n) ∧
      (calculate_eld_compliance d c).total_break_time =
        (((calculate_eld_compliance d c).cycles_needed : ℚ) - 1) * 10 ∧
      ((calculate_eld_compliance d c).compliant = true ↔
        (d ≤ 11 - c ∨ 1 < (calculate_eld_compliance d c).cycles_needed))) ∧
    (calculate_eld_compliance 8 0).cycles_needed = 1 ∧
    (calculate_eld_compliance 11 0).cycles_needed = 1 ∧
    (calculate_eld_compliance (1101 / 100) 0).cycles_needed = 2 ∧
    (calculate_eld_compliance 22 0).cycles_needed = 2 ∧
    (calculate_eld_compliance 25 0).cycles_needed = 3 ∧
    (calculate_eld_compliance 25 0).total_break_time = 20 := by
  have hceil : ∀ d : ℚ, ∀ n : ℤ, ⌈d / 11⌉ ≤ n ↔ d ≤ 11 * n := by
    intro d n
    rw [Int.ceil_le, div_le_iff (by norm_num : (0 : ℚ) < 11)]
    constructor
    · intro h; linarith
    · intro h; linarith
  refine ⟨fun d c => ⟨rfl, rfl, hceil d, rfl, ?_⟩, ?_, ?_, ?_, ?_, ?_, ?_⟩
  · simp [calculate_eld_compliance]
  · show ⌈(8 : ℚ) / 11⌉ = 1
    rw [Int.ceil_eq_iff]
    norm_num
  · show ⌈(11 : ℚ) / 11⌉ = 1
    rw [Int.ceil_eq_iff]
    norm_num
  · show ⌈(1101 / 100 : ℚ) / 11⌉ = 2
    rw [Int.ceil_eq_iff]
    norm_num
  · show ⌈(22 : ℚ) / 11⌉ = 2
    rw [Int.ceil_eq_iff]
    norm_num
  · show ⌈(25 : ℚ) / 11⌉ = 3
    rw [Int.ceil_eq_iff]
    norm_num
  · show ((⌈(25 : ℚ) / 11⌉ : ℚ) - 1) * 10 = 20
    have : ⌈(25 : ℚ) / 11⌉ = 3 := by
      rw [Int.ceil_eq_iff]
      norm_num
    rw [this]
    norm_num

/-! ## C6: stop planner -/

/-- C6: for driving duration `D ≥ 0` and distance `M ≥ 0`,
`calculate_trip_stops` returns exactly one mandatory 1.0-hour pickup stop,
exactly one mandatory 1.0-hour dropoff stop, exactly `floor(D/8)` mandatory
0.5-hour rest breaks and exactly `floor(M/1000)` mandatory 0.5-hour fuel
stops (and, being a Lean function of its two arguments, it is a pure
function of its inputs). -/
theorem claim_c6_stop_planner (D M : ℚ) (hD : 0 ≤ D) (hM : 0 ≤ M) :
    (calculate_trip_stops D M).filter (fun s => s.type == StopType.pickup) =
      [⟨StopType.pickup, 1, true⟩] ∧
    (calculate_trip_stops D M).filter (fun s => s.type == StopType.dropoff) =
      [⟨StopType.dropoff, 1, true⟩] ∧
    (calculate_trip_stops D M).filter (fun s => s.type == StopType.rest_break) =
      List.replicate (⌊D / 8⌋.toNat) ⟨StopType.rest_break, 1/2, true⟩ ∧
    ((⌊D / 8⌋.toNat : ℤ) = ⌊D / 8⌋) ∧
    (calculate_trip_stops D M).filter (fun s => s.type == StopType.fuel) =
      List.replicate (⌊M / 1000⌋.toNat) ⟨StopType.fuel, 1/2, true⟩ ∧
    ((⌊M / 1000⌋.toNat : ℤ) = ⌊M / 1000⌋) := by
  refine ⟨?_, ?_, ?_, ?_, ?_, ?_⟩
  · simp [calculate_trip_stops, List.filter_append, List.filter_replicate]
  · simp [calculate_trip_stops, List.filter_append, List.filter_replicate]
  · simp [calculate_trip_stops, List.filter_append, List.filter_replicate]
  · exact Int.toNat_of_nonneg (Int.floor_nonneg.mpr (div_nonneg hD (by norm_num)))
  · simp [calculate_trip_stops, List.filter_append, List.filter_replicate]
  · exact Int.toNat_of_nonneg (Int.floor_nonneg.mpr (div_nonneg hM (by norm_num)))

/-- Witness for C6 at a concrete input: a 17-hour, 2500-mile trip gets two
rest breaks and two fuel stops besides pickup and dropoff. -/
theorem claim_c6_stop_planner_witness :
    (calculate_trip_stops 17 2500).filter (fun s => s.type == StopType.pickup) =
      [⟨StopType.pickup, 1, true⟩] ∧
    (calculate_trip_stops 17 2500).filter (fun s => s.type == StopType.dropoff) =
      [⟨StopType.dropoff, 1, true⟩] ∧
    (calculate_trip_stops 17 2500).filter (fun s => s.type == StopType.rest_break) =
      List.replicate (⌊(17 : ℚ) / 8⌋.toNat) ⟨StopType.rest_break, 1/2, true⟩ ∧
    ((⌊(17 : ℚ) / 8⌋.toNat : ℤ) = ⌊(17 : ℚ) / 8⌋) ∧
    (calculate_trip_stops 17 2500).filter (fun s => s.type == StopType.fuel) =
      List.replicate (⌊(2500 : ℚ) / 1000⌋.toNat) ⟨StopType.fuel, 1/2, true⟩ ∧
    ((⌊(2500 : ℚ) / 1000⌋.toNat : ℤ) = ⌊(2500 : ℚ) / 1000⌋) :=
  claim_c6_stop_planner 17 2500 (by norm_num) (by norm_num)

/-! ## C8: log entry validation -/

/-- C8: a LogEntry is accepted by validation iff `start_hour ∈ [0, 24)`,
`duration_hours > 0` and `start_hour + duration_hours ≤ 24` (the midnight
boundary 24 itself allowed); `start_hour = 23, duration_hours = 2` is
rejected as crossing midnight while `start_hour = 22, duration_hours = 2`
is accepted. -/
theorem claim_c8_logentry_validation :
    (∀ s d : ℚ, logentry_validate s d = Except.ok () ↔
      (0 ≤ s ∧ s < 24 ∧ 0 < d ∧ s + d ≤ 24)) ∧
    logentry_validate 23 2 = Except.error "entry crosses midnight" ∧
    logentry_validate 22 2 = Except.ok () := by
  refine ⟨?_, ?_, ?_⟩
  · intro s d
    unfold logentry_validate
    split_ifs with h1 h2 h3
    · constructor
      · intro h; simp at h
      · rintro ⟨hs0, hs24, _, _⟩
        rcases h1 with h | h <;> linarith
    · constructor
      · intro h; simp at h
      · rintro ⟨_, _, hd, _⟩; linarith
    · constructor
      · intro h; simp at h
      · rintro ⟨_, _, _, hsum⟩; linarith
    · push_neg at h1 h2 h3
      simp only [true_iff]
      exact ⟨h1.1, h1.2, h2, h3⟩
  · unfold logentry_validate
    norm_num
  · unfold logentry_validate
    norm_num

/-! ## C2-C4: daily log generator -/

theorem go_zero (rt rc tm : ℚ) :
    generate_daily_logs_go 0 rt rc tm = if rt ≤ 0 then some [] else none := rfl

theorem go_succ (f : ℕ) (rt rc tm : ℚ) :
    generate_daily_logs_go (f + 1) rt rc tm =
      if rt ≤ 0 then some []
      else if rc ≤ 0 then
        (generate_daily_logs_go f rt 11 (tm + 10)).map
          (fun rest => ⟨⌊tm / 24⌋, 0, 10, DutyStatus.off_duty⟩ :: rest)
      else
        (generate_daily_logs_go f (rt - min (min 11 (min rc rt)) 11)
            (rc - min (min 11 (min rc rt)) 11)
            (tm + (min (min 11 (min rc rt)) 11 + 10))).map
          (fun rest =>
            ⟨⌊tm / 24⌋, round2 (min (min 11 (min rc rt)) 11), round2 10,
              if 0 < min (min 11 (min rc rt)) 11 then DutyStatus.driving
              else DutyStatus.off_duty⟩ :: rest) := rfl

theorem min_min_self (a x : ℚ) : min (min a x) a = min a x :=
  min_eq_left (min_le_left a x)

theorem min_idem_left (a x : ℚ) : min a (min a x) = min a x := by
  rw [← min_assoc, min_self]

theorem go_of_nonpos {rt : ℚ} (h : rt ≤ 0) (rc tm : ℚ) (f : ℕ) :
    generate_daily_logs_go f rt rc tm = some [] := by
  cases f with
  | zero => rw [go_zero, if_pos h]
  | succ f => rw [go_succ, if_pos h]

theorem isSome_map_of_isSome {α β : Type} {x : Option α} (g : α → β)
    (h : x.isSome = true) : ((x.map g).isSome = true) := by
  cases x with
  | none => simp at h
  | some l => rfl

theorem go_mono (f : ℕ) : ∀ {f' : ℕ} {rt rc tm : ℚ}, f ≤ f' →
    (generate_daily_logs_go f rt rc tm).isSome = true →
    generate_daily_logs_go f' rt rc tm = generate_daily_logs_go f rt rc tm := by
  induction f with
  | zero =>
      intro f' rt rc tm _ hsome
      by_cases hrt : rt ≤ 0
      · rw [go_of_nonpos hrt, go_of_nonpos hrt]
      · rw [go_zero, if_neg hrt] at hsome
        simp at hsome
  | succ f ih =>
      intro f' rt rc tm hle hsome
      by_cases hrt : rt ≤ 0
      · rw [go_of_nonpos hrt, go_of_nonpos hrt]
      · obtain ⟨f'', rfl⟩ : ∃ g, f' = g + 1 := ⟨f' - 1, by omega⟩
        have hle' : f ≤ f'' := by omega
        rw [go_succ, if_neg hrt] at hsome ⊢
        rw [go_succ, if_neg hrt]
        by_cases hrc : rc ≤ 0
        · rw [if_pos hrc] at hsome ⊢
          rw [if_pos hrc]
          cases hx : generate_daily_logs_go f rt 11 (tm + 10) with
          | none => rw [hx] at hsome; simp at hsome
          | some l => rw [ih hle' (by rw [hx]; rfl), hx]
        · rw [if_neg hrc] at hsome ⊢
          rw [if_neg hrc]
          cases hx : generate_daily_logs_go f (rt - min (min 11 (min rc rt)) 11)
              (rc - min (min 11 (min rc rt)) 11)
              (tm + (min (min 11 (min rc rt)) 11 + 10)) with
          | none => rw [hx] at hsome; simp at hsome
          | some l => rw [ih hle' (by rw [hx]; rfl), hx]

theorem go_congr {f1 f2 : ℕ} {rt rc tm : ℚ}
    (h1 : (generate_daily_logs_go f1 rt rc tm).isSome = true)
    (h2 : (generate_daily_logs_go f2 rt rc tm).isSome = true) :
    generate_daily_logs_go f1 rt rc tm = generate_daily_logs_go f2 rt rc tm := by
  rcases le_total f1 f2 with h | h
  · rw [go_mono f1 h h1]
  · rw [go_mono f2 h h2]

theorem go_total (n : ℕ) : ∀ (rt rc tm : ℚ) (f : ℕ),
    rt ≤ 11 * (n : ℚ) → 3 * n + 1 ≤ f →
    (generate_daily_logs_go f rt rc tm).isSome = true := by
  induction n with
  | zero =>
      intro rt rc tm f hrt _
      have h0 : rt ≤ 0 := by
        push_cast at hrt
        linarith
      rw [go_of_nonpos h0]
      rfl
  | succ n ih =>
      intro rt rc tm f hrt hf
      by_cases h0 : rt ≤ 0
      · rw [go_of_nonpos h0]; rfl
      · push_neg at h0
        obtain ⟨f1, rfl⟩ : ∃ g, f = g + 1 := ⟨f - 1, by omega⟩
        have hrt' : rt ≤ 11 * (n : ℚ) + 11 := by
          push_cast at hrt
          linarith
        rw [go_succ, if_neg (not_le.mpr h0)]
        by_cases hrc : rc ≤ 0
        · rw [if_pos hrc]
          apply isSome_map_of_isSome
          obtain ⟨f2, rfl⟩ : ∃ g, f1 = g + 1 := ⟨f1 - 1, by omega⟩
          rw [go_succ, if_neg (not_le.mpr h0),
            if_neg (by norm_num : ¬(11 : ℚ) ≤ 0), min_min_self, min_idem_left]
          by_cases hr11 : rt ≤ 11
          · rw [min_eq_right hr11, go_of_nonpos (by linarith : rt - rt ≤ 0)]
            rfl
          · push_neg at hr11
            rw [min_eq_left (le_of_lt hr11)]
            apply isSome_map_of_isSome
            exact ih (rt - 11) _ _ f2 (by linarith) (by omega)
        · rw [if_neg hrc]
          push_neg at hrc
          rw [min_min_self]
          set h := min 11 (min rc rt) with hh
          have h_le_rt : h ≤ rt := le_trans (min_le_right _ _) (min_le_right rc rt)
          by_cases hA : rt - h ≤ 0
          · rw [go_of_nonpos hA]
            rfl
          · push_neg at hA
            by_cases h11 : 11 ≤ rc
            · -- full 11-hour bite
              have hrt11 : 11 < rt := by
                by_contra hcon
                push_neg at hcon
                have hx : h = rt := by
                  rw [hh, min_eq_right (le_trans hcon h11), min_eq_right hcon]
                rw [hx] at hA
                linarith
              have hx : h = 11 := by
                rw [hh, min_eq_left (le_min h11 (le_of_lt hrt11))]
              rw [hx]
              apply isSome_map_of_isSome
              exact ih (rt - 11) _ _ f1 (by linarith) (by omega)
            · push_neg at h11
              -- bite limited by the cycle: next day is a forced break,
              -- then a full-cycle day
              have hrcrt : rc ≤ rt := by
                by_contra hcon
                push_neg at hcon
                have hx : h = rt := by
                  rw [hh, min_eq_right (le_of_lt hcon),
                    min_eq_right (by linarith : rt ≤ 11)]
                rw [hx] at hA
                linarith
              have hx : h = rc := by
                rw [hh, min_eq_left hrcrt, min_eq_right (le_of_lt h11)]
              rw [hx]
              apply isSome_map_of_isSome
              obtain ⟨f2, rfl⟩ : ∃ g, f1 = g + 1 := ⟨f1 - 1, by omega⟩
              rw [hx] at hA
              rw [go_succ, if_neg (not_le.mpr hA),
                if_pos (by linarith : rc - rc ≤ 0)]
              apply isSome_map_of_isSome
              obtain ⟨f3, rfl⟩ : ∃ g, f2 = g + 1 := ⟨f2 - 1, by omega⟩
              rw [go_succ, if_neg (not_le.mpr hA),
                if_neg (by norm_num : ¬(11 : ℚ) ≤ 0), min_min_self, min_idem_left]
              by_cases hr2 : rt - rc ≤ 11
              · rw [min_eq_right hr2,
                  go_of_nonpos (by linarith : rt - rc - (rt - rc) ≤ 0)]
                rfl
              · push_neg at hr2
                rw [min_eq_left (le_of_lt hr2)]
                apply isSome_map_of_isSome
                refine ih (rt - rc - 11) _ _ f3 ?_ (by omega)
                have h0rc : 0 < rc := hrc
                linarith

theorem rt_le_11_ceil (rt : ℚ) : rt ≤ 11 * ((⌈rt / 11⌉.toNat : ℕ) : ℚ) := by
  rcases le_or_lt rt 0 with h | h
  · have hpos : (0 : ℚ) ≤ 11 * ((⌈rt / 11⌉.toNat : ℕ) : ℚ) := by positivity
    linarith
  · have hge : (0 : ℤ) ≤ ⌈rt / 11⌉ := Int.ceil_nonneg (by positivity)
    have hceil : rt / 11 ≤ ((⌈rt / 11⌉ : ℤ) : ℚ) := Int.le_ceil _
    have h2 : 11 * (rt / 11) ≤ 11 * ((⌈rt / 11⌉ : ℤ) : ℚ) :=
      mul_le_mul_of_nonneg_left hceil (by norm_num)
    have h3 : 11 * (rt / 11) = rt := by field_simp
    have h4 : ((⌈rt / 11⌉.toNat : ℕ) : ℚ) = ((⌈rt / 11⌉ : ℤ) : ℚ) := by
      exact_mod_cast congrArg (fun z : ℤ => (z : ℚ)) (Int.toNat_of_nonneg hge)
    rw [h4]
    linarith

theorem fuelFor_ge (rt : ℚ) : 3 * ⌈rt / 11⌉.toNat + 1 ≤ fuelFor rt := by
  unfold fuelFor
  omega

theorem simulate_days_isSome (tm rt rc : ℚ) :
    (generate_daily_logs_go (fuelFor rt) rt rc tm).isSome = true :=
  go_total (⌈rt / 11⌉.toNat) rt rc tm (fuelFor rt) (rt_le_11_ceil rt) (fuelFor_ge rt)

theorem round2_ten : round2 (10 : ℚ) = 10 :=
  round2_cent ⟨1000, by norm_num⟩

/-- Unfolding equation of the simulation loop: one iteration of the
`while` loop of `generate_daily_logs`, independent of the fuel
bookkeeping. -/
theorem simulate_days_unfold (tm rt rc : ℚ) :
    simulate_days tm rt rc =
      if rt ≤ 0 then []
      else if rc ≤ 0 then
        ⟨⌊tm / 24⌋, 0, 10, DutyStatus.off_duty⟩ :: simulate_days (tm + 10) rt 11
      else
        ⟨⌊tm / 24⌋, round2 (min 11 (min rc rt)), 10, DutyStatus.driving⟩ ::
          simulate_days (tm + (min 11 (min rc rt) + 10)) (rt - min 11 (min rc rt))
            (rc - min 11 (min rc rt)) := by
  by_cases h0 : rt ≤ 0
  · rw [if_pos h0]
    unfold simulate_days
    rw [go_of_nonpos h0]
    rfl
  · rw [if_neg h0]
    push_neg at h0
    set k := ⌈rt / 11⌉.toNat with hk
    have hrtk : rt ≤ 11 * (k : ℚ) := rt_le_11_ceil rt
    have hfuel : fuelFor rt = (3 * k + 4) + 1 := by
      unfold fuelFor
      omega
    by_cases hrc : rc ≤ 0
    · rw [if_pos hrc]
      have hsome1 : (generate_daily_logs_go (3 * k + 4) rt 11 (tm + 10)).isSome = true :=
        go_total k rt 11 (tm + 10) (3 * k + 4) hrtk (by omega)
      have hsome2 :
          (generate_daily_logs_go (fuelFor rt) rt 11 (tm + 10)).isSome = true :=
        simulate_days_isSome (tm + 10) rt 11
      obtain ⟨l, hl⟩ := Option.isSome_iff_exists.mp hsome1
      have heq : generate_daily_logs_go (fuelFor rt) rt 11 (tm + 10) =
          generate_daily_logs_go (3 * k + 4) rt 11 (tm + 10) :=
        go_congr hsome2 hsome1
      show (generate_daily_logs_go (fuelFor rt) rt rc tm).getD [] = _
      rw [hfuel, go_succ, if_neg (not_le.mpr h0), if_pos hrc, hl]
      show ⟨⌊tm / 24⌋, 0, 10, DutyStatus.off_duty⟩ :: l = _
      rw [show simulate_days (tm + 10) rt 11 =
        (generate_daily_logs_go (fuelFor rt) rt 11 (tm + 10)).getD [] from rfl]
      rw [heq, hl]
      rfl
    · rw [if_neg hrc]
      push_neg at hrc
      set h := min 11 (min rc rt) with hh
      have h_pos : 0 < h := lt_min (by norm_num) (lt_min hrc h0)
      have h_le_rt : h ≤ rt := le_trans (min_le_right _ _) (min_le_right rc rt)
      have hsome1 : (generate_daily_logs_go (3 * k + 4) (rt - h) (rc - h)
          (tm + (h + 10))).isSome = true :=
        go_total k (rt - h) (rc - h) (tm + (h + 10)) (3 * k + 4)
          (by linarith) (by omega)
      have hsome2 : (generate_daily_logs_go (fuelFor (rt - h)) (rt - h) (rc - h)
          (tm + (h + 10))).isSome = true :=
        simulate_days_isSome (tm + (h + 10)) (rt - h) (rc - h)
      obtain ⟨l, hl⟩ := Option.isSome_iff_exists.mp hsome1
      have heq : generate_daily_logs_go (fuelFor (rt - h)) (rt - h) (rc - h)
          (tm + (h + 10)) =
          generate_daily_logs_go (3 * k + 4) (rt - h) (rc - h) (tm + (h + 10)) :=
        go_congr hsome2 hsome1
      show (generate_daily_logs_go (fuelFor rt) rt rc tm).getD [] = _
      rw [hfuel, go_succ, if_neg (not_le.mpr h0), if_neg (not_le.mpr hrc),
        min_min_self, ← hh, hl]
      show ⟨⌊tm / 24⌋, round2 h, round2 10,
          if 0 < h then DutyStatus.driving else DutyStatus.off_duty⟩ :: l = _
      rw [if_pos h_pos, round2_ten]
      rw [show simulate_days (tm + (h + 10)) (rt - h) (rc - h) =
        (generate_daily_logs_go (fuelFor (rt - h)) (rt - h) (rc - h)
          (tm + (h + 10))).getD [] from rfl]
      rw [heq, hl]
      rfl

/-- C2 (amended): one step of the `generate_daily_logs` simulation.  If
`remaining_cycle_hours ≤ 0` the emitted day has 0 driving hours, 10
off-duty hours and status `off_duty`, the cycle is reset to 11.0, the
clock advances by 10 hours and no trip time is consumed; otherwise the
emitted day's driving hours are `min(11.0, remaining_cycle_hours,
remaining_trip_time)` rounded to two decimal places, with off-duty hours
fixed at 10.0 and status `driving`, and both counters are decremented by
the unrounded amount; the loop ends (empty suffix) once
`remaining_trip_time ≤ 0`, so a trip entering with
`remaining_trip_time ≤ 0` produces an empty list. -/
theorem claim_c2_daily_log_simulation :
    (∀ current_time remaining_trip_time remaining_cycle_hours : ℚ,
      simulate_days current_time remaining_trip_time remaining_cycle_hours =
        if remaining_trip_time ≤ 0 then []
        else if remaining_cycle_hours ≤ 0 then
          ⟨⌊current_time / 24⌋, 0, 10, DutyStatus.off_duty⟩ ::
            simulate_days (current_time + 10) remaining_trip_time 11
        else
          ⟨⌊current_time / 24⌋,
              round2 (min 11 (min remaining_cycle_hours remaining_trip_time)),
              10, DutyStatus.driving⟩ ::
            simulate_days
              (current_time +
                (min 11 (min remaining_cycle_hours remaining_trip_time) + 10))
              (remaining_trip_time -
                min 11 (min remaining_cycle_hours remaining_trip_time))
              (remaining_cycle_hours -
                min 11 (min remaining_cycle_hours remaining_trip_time))) ∧
    (∀ trip_start_time trip_duration_hours cycle_used_hours : ℚ,
      generate_daily_logs trip_start_time trip_duration_hours cycle_used_hours =
        simulate_days trip_start_time trip_duration_hours
          (11 - cycle_used_hours)) :=
  ⟨simulate_days_unfold, fun _ _ _ => rfl⟩

/-- C4: the `while` loop of `generate_daily_logs` terminates for every
input: the fuelled loop body run with the bound chosen by
`generate_daily_logs` always completes (returns `some`) rather than
running out of fuel. -/
theorem claim_c4_generator_terminates
    (trip_start_time trip_duration_hours cycle_used_hours : ℚ) :
    (generate_daily_logs_go (fuelFor trip_duration_hours) trip_duration_hours
      (11 - cycle_used_hours) trip_start_time).isSome = true :=
  simulate_days_isSome trip_start_time trip_duration_hours
    (11 - cycle_used_hours)

theorem floor_zero_div : ⌊(0 : ℚ) / 24⌋ = 0 := by norm_num

theorem round2_six_thousandths : round2 (6 / 1000 : ℚ) = 1 / 100 := by
  have h1 : (6 / 1000 : ℚ) * 100 = 3 / 5 := by norm_num
  have h2 : ⌊(3 / 5 : ℚ)⌋ = 0 := by
    rw [Int.floor_eq_iff]
    norm_num
  unfold round2 rhe
  rw [h1, h2]
  norm_num

/-- Evaluation of `generate_daily_logs` on a 0.006-hour trip with a fresh
cycle: a single driving day whose emitted `driving_hours` is the rounded
value 0.01. -/
theorem generate_daily_logs_six_thousandths :
    generate_daily_logs 0 (6 / 1000) 0 =
      [⟨0, 1 / 100, 10, DutyStatus.driving⟩] := by
  have hstart : generate_daily_logs 0 (6 / 1000) 0 =
      simulate_days 0 (6 / 1000) 11 := by
    unfold generate_daily_logs
    norm_num
  have hmin : min (11 : ℚ) (min 11 (6 / 1000)) = 6 / 1000 := by
    rw [min_eq_right (by norm_num : (6 / 1000 : ℚ) ≤ 11),
      min_eq_right (by norm_num : (6 / 1000 : ℚ) ≤ 11)]
  rw [hstart, simulate_days_unfold, if_neg (by norm_num), if_neg (by norm_num),
    hmin, simulate_days_unfold,
    if_pos (by norm_num : (6 / 1000 : ℚ) - 6 / 1000 ≤ 0),
    floor_zero_div, round2_six_thousandths]

/-- Counterexample to C2 as stated: on a 0.006-hour trip the emitted
`driving_hours` value is `round(0.006, 2) = 0.01`, not the exact
`min(11.0, remaining_cycle_hours, remaining_trip_time) = 0.006` the claim
asserts. -/
theorem claim_c2_counterexample :
    (generate_daily_logs 0 (6 / 1000) 0).map DayRec.driving_hours =
      [1 / 100] ∧
    (1 / 100 : ℚ) ≠ min 11 (min (11 - 0) (6 / 1000)) := by
  constructor
  · rw [generate_daily_logs_six_thousandths]
    rfl
  · rw [show ((11 : ℚ) - 0) = 11 by norm_num,
      min_eq_right (by norm_num : (6 / 1000 : ℚ) ≤ 11),
      min_eq_right (by norm_num : (6 / 1000 : ℚ) ≤ 11)]
    norm_num

theorem go_driving_total_le (f : ℕ) :
    ∀ (rt rc tm : ℚ) (l : List DayRec), isCent rt → isCent rc →
      generate_daily_logs_go f rt rc tm = some l →
      driving_total l ≤ max rt 0 := by
  induction f with
  | zero =>
      intro rt rc tm l _ _ hl
      rw [go_zero] at hl
      by_cases h0 : rt ≤ 0
      · rw [if_pos h0] at hl
        injection hl with hl
        rw [← hl]
        simpa [driving_total] using le_max_right rt 0
      · rw [if_neg h0] at hl
        cases hl
  | succ f ih =>
      intro rt rc tm l hcrt hcrc hl
      rw [go_succ] at hl
      by_cases h0 : rt ≤ 0
      · rw [if_pos h0] at hl
        injection hl with hl
        rw [← hl]
        simpa [driving_total] using le_max_right rt 0
      · rw [if_neg h0] at hl
        push_neg at h0
        by_cases hrc : rc ≤ 0
        · rw [if_pos hrc] at hl
          cases hx : generate_daily_logs_go f rt 11 (tm + 10) with
          | none => rw [hx] at hl; cases hl
          | some l' =>
              rw [hx, Option.map_some'] at hl
              injection hl with hl
              rw [← hl]
              have hrec := ih rt 11 (tm + 10) l' hcrt ⟨1100, by norm_num⟩ hx
              have hcons : driving_total
                  (⟨⌊tm / 24⌋, 0, 10, DutyStatus.off_duty⟩ :: l') =
                  0 + driving_total l' := by
                simp [driving_total]
              rw [hcons]
              linarith
        · rw [if_neg hrc] at hl
          push_neg at hrc
          rw [min_min_self] at hl
          set h := min 11 (min rc rt) with hh
          have h_pos : 0 < h := lt_min (by norm_num) (lt_min hrc h0)
          have h_le_rt : h ≤ rt := le_trans (min_le_right _ _) (min_le_right rc rt)
          have hcent_h : isCent h :=
            isCent_min ⟨1100, by norm_num⟩ (isCent_min hcrc hcrt)
          cases hx : generate_daily_logs_go f (rt - h) (rc - h) (tm + (h + 10)) with
          | none => rw [hx] at hl; cases hl
          | some l' =>
              rw [hx, Option.map_some'] at hl
              injection hl with hl
              rw [← hl]
              have hrec := ih (rt - h) (rc - h) (tm + (h + 10)) l'
                (isCent_sub hcrt hcent_h) (isCent_sub hcrc hcent_h) hx
              rw [max_eq_left (by linarith : (0 : ℚ) ≤ rt - h)] at hrec
              have hcons : driving_total
                  (⟨⌊tm / 24⌋, round2 h, round2 10,
                    if 0 < h then DutyStatus.driving else DutyStatus.off_duty⟩ ::
                      l') = round2 h + driving_total l' := by
                simp [driving_total]
              rw [hcons, round2_cent hcent_h]
              have hmax : rt ≤ max rt 0 := le_max_left rt 0
              linarith

/-- C3 (amended): for a trip duration `D ≥ 0` with at most two decimal
places (every duration the callers produce: route durations are rounded to
two decimals) and a fresh cycle, the emitted driving hours sum to at most
`D`. -/
theorem claim_c3_driving_sum_le (trip_start_time trip_duration_hours : ℚ)
    (hpos : 0 ≤ trip_duration_hours) (hcent : isCent trip_duration_hours) :
    driving_total (generate_daily_logs trip_start_time trip_duration_hours 0) ≤
      trip_duration_hours := by
  unfold generate_daily_logs simulate_days
  cases hx : generate_daily_logs_go (fuelFor trip_duration_hours)
      trip_duration_hours (11 - 0) trip_start_time with
  | none =>
      simpa [driving_total] using hpos
  | some l =>
      have hrec := go_driving_total_le (fuelFor trip_duration_hours)
        trip_duration_hours (11 - 0) trip_start_time l hcent
        (isCent_sub ⟨1100, by norm_num⟩ ⟨0, by norm_num⟩) hx
      rw [max_eq_left hpos] at hrec
      simpa using hrec

/-- Witness for C3 (amended) at a concrete input: a 25-hour trip. -/
theorem claim_c3_driving_sum_le_witness :
    driving_total (generate_daily_logs 0 25 0) ≤ 25 :=
  claim_c3_driving_sum_le 0 25 (by norm_num) ⟨2500, by norm_num⟩

/-- Counterexample to C3 as stated: on a 0.006-hour trip the emitted
driving hours sum to 0.01, which exceeds the requested duration. -/
theorem claim_c3_counterexample :
    driving_total (generate_daily_logs 0 (6 / 1000) 0) = 1 / 100 ∧
    ¬ driving_total (generate_daily_logs 0 (6 / 1000) 0) ≤ 6 / 1000 := by
  have h1 : driving_total (generate_daily_logs 0 (6 / 1000) 0) = 1 / 100 := by
    rw [generate_daily_logs_six_thousandths]
    simp [driving_total]
  refine ⟨h1, ?_⟩
  rw [h1]
  norm_num

/-! ## C7: route provider failure handling -/

/-- C7 (code-bug evidence): when the route provider fails on a planning
request with valid coordinates, `calculate_trip_route` propagates the
failure to its caller (who turns it into an HTTP 500) instead of falling
back to the 55 mph great-circle estimate the claim describes; the
`average_speed = 55` argument is never consulted. -/
theorem claim_c7_failure_propagates :
    calculate_trip_route failing_provider
      (some ⟨some 40, some (-74)⟩) (some ⟨some 41, some (-87)⟩)
      (some ⟨some 34, some (-118)⟩) 55 =
      Except.error "Failed to calculate route: network error" := rfl

/-! ## C9: coordinate validation -/

/-- C9 (amended): the route calculation rejects a location with a
synchronous descriptive validation failure exactly when the location is
missing, or its latitude is zero or unset, or its longitude is zero or
unset — a single zero coordinate already makes it invalid. -/
theorem claim_c9_coordinate_validation :
    (∀ l : Option Loc, invalid_loc l = true ↔
      (l = none ∨ ∃ x, l = some x ∧
        (x.lat = none ∨ x.lat = some 0 ∨ x.lon = none ∨ x.lon = some 0))) ∧
    (∀ (provider : RouteProvider) (average_speed : ℚ)
        (current pickup dropoff : Option Loc) (m : String),
      validate_locations current pickup dropoff = Except.error m →
      calculate_trip_route provider current pickup dropoff average_speed =
        Except.error m) ∧
    (∀ current pickup dropoff : Option Loc,
      (∃ m, validate_locations current pickup dropoff = Except.error m) ↔
        (invalid_loc current = true ∨ invalid_loc pickup = true ∨
          invalid_loc dropoff = true)) := by
  refine ⟨?_, ?_, ?_⟩
  · intro l
    cases l with
    | none => simp [invalid_loc]
    | some x => simp [invalid_loc, or_assoc]
  · intro provider average_speed current pickup dropoff m hm
    unfold calculate_trip_route
    rw [hm]
  · intro current pickup dropoff
    unfold validate_locations
    split_ifs with h1 h2 h3
    · simp [h1]
    · simp [h1, h2]
    · simp [h1, h2, h3]
    · simp [h1, h2, h3]

/-- Witness for C9 (amended) at a concrete input: a missing current
location is rejected and the rejection reaches the route calculation
result. -/
theorem claim_c9_coordinate_validation_witness :
    calculate_trip_route ok_provider none (some ⟨some 41, some (-87)⟩)
      (some ⟨some 34, some (-118)⟩) 55 =
      Except.error "Invalid coordinates for current location" :=
  claim_c9_coordinate_validation.2.1 ok_provider 55 none
    (some ⟨some 41, some (-87)⟩) (some ⟨some 34, some (-118)⟩)
    "Invalid coordinates for current location" rfl

/-- Counterexample to C9 as stated: a current location with latitude 0 but
longitude 50 is rejected by the validation, although its latitude and
longitude are not BOTH zero or unset. -/
theorem claim_c9_counterexample :
    calculate_trip_route ok_provider (some ⟨some 0, some 50⟩)
      (some ⟨some 41, some (-87)⟩) (some ⟨some 34, some (-118)⟩) 55 =
      Except.error "Invalid coordinates for current location" ∧
    ¬ both_zero_unset (some ⟨some 0, some 50⟩) := by
  constructor
  · rfl
  · intro h
    rcases h with ⟨_, hlon⟩
    rcases hlon with h | h
    · exact Option.noConfusion h
    · rw [Option.some.injEq] at h
      norm_num at h

/-! ## C10: rollup recomputation -/

theorem rollup_pair_eq (entries : List LogEntry) :
    rollup_pair entries =
      (entries_duration_sum
          (entries.filter (fun e => e.status == DutyStatus.driving)),
        entries_duration_sum
          (entries.filter (fun e => !(e.status == DutyStatus.driving)))) := by
  have key : ∀ (l : List LogEntry) (acc : ℚ × ℚ),
      l.foldl
        (fun acc e =>
          if e.status = DutyStatus.driving then
            (acc.1 + e.duration_hours, acc.2)
          else (acc.1, acc.2 + e.duration_hours)) acc =
      (acc.1 + entries_duration_sum
          (l.filter (fun e => e.status == DutyStatus.driving)),
        acc.2 + entries_duration_sum
          (l.filter (fun e => !(e.status == DutyStatus.driving)))) := by
    intro l
    induction l with
    | nil => intro acc; simp [entries_duration_sum]
    | cons a t ih =>
        intro acc
        by_cases hs : a.status = DutyStatus.driving
        · rw [List.foldl_cons, if_pos hs, ih]
          have hb : (a.status == DutyStatus.driving) = true := by
            simp [hs]
          simp [List.filter_cons, hb, entries_duration_sum]
          ring
        · rw [List.foldl_cons, if_neg hs, ih]
          have hb : (a.status == DutyStatus.driving) = false := by
            simp [hs]
          simp [List.filter_cons, hb, entries_duration_sum]
          ring
  unfold rollup_pair
  rw [key]
  simp

theorem recompute_rollup_invariant (dl : DailyLogRec) :
    rollup_invariant (recompute_rollup dl) := by
  unfold rollup_invariant recompute_rollup
  rw [rollup_pair_eq]
  exact ⟨rfl, rfl⟩

/-- C10: after every successful create, update or delete through the entry
endpoints, the owning daily log's aggregates equal sums over the current
entries: `driving_hours` is the sum of durations of `driving` entries and
`off_duty_hours` the sum of durations of all other entries (so
`on_duty_not_driving` and `sleeper_berth` durations both land in
`off_duty_hours`). -/
theorem claim_c10_rollup_recompute (today : ℤ) (dl : DailyLogRec) :
    (∀ (e : LogEntry) (dl' : DailyLogRec),
      perform_create today dl e = Except.ok dl' → rollup_invariant dl') ∧
    (∀ (i : ℕ) (e : LogEntry) (dl' : DailyLogRec),
      perform_update today dl i e = Except.ok dl' → rollup_invariant dl') ∧
    (∀ (i : ℕ) (dl' : DailyLogRec),
      perform_destroy today dl i = Except.ok dl' → rollup_invariant dl') := by
  refine ⟨?_, ?_, ?_⟩
  · intro e dl' h
    unfold perform_create at h
    split_ifs at h
    injection h with h
    rw [← h]
    exact recompute_rollup_invariant _
  · intro i e dl' h
    unfold perform_update at h
    split_ifs at h
    injection h with h
    rw [← h]
    exact recompute_rollup_invariant _
  · intro i dl' h
    unfold perform_destroy at h
    split_ifs at h
    injection h with h
    rw [← h]
    exact recompute_rollup_invariant _

/-- Witness for C10 at a concrete input: creating a driving entry on an
empty log of the current day. -/
theorem claim_c10_rollup_recompute_witness :
    rollup_invariant
      (recompute_rollup ⟨0, 0, 0, [] ++ [⟨DutyStatus.driving, 0, 1⟩]⟩) :=
  (claim_c10_rollup_recompute 0 ⟨0, 0, 0, []⟩).1 ⟨DutyStatus.driving, 0, 1⟩
    (recompute_rollup ⟨0, 0, 0, [] ++ [⟨DutyStatus.driving, 0, 1⟩]⟩)
    (by unfold perform_create; rw [if_neg (by norm_num : ¬(0 : ℤ) < 0)])

/-! ## C1: rolling cycle calculator -/

theorem list_range_map_sum (g : ℕ → ℚ) (n : ℕ) :
    ((List.range n).map g).sum = ∑ i in Finset.range n, g i := by
  induction n with
  | zero => simp
  | succ n ih =>
      rw [List.range_succ, List.map_append, List.sum_append,
        Finset.sum_range_succ, ih]
      simp

theorem sum_Icc_int (f : ℤ → ℚ) (a b : ℤ) :
    ∑ i in Finset.Icc a b, f i =
      ∑ i in Finset.range (b + 1 - a).toNat, f (a + (i : ℤ)) := by
  rw [Int.Icc_eq_finset_map, Finset.sum_map]
  rfl

theorem days_from_sum (f : ℤ → ℚ) (a : ℤ) (n : ℕ) :
    ((days_from a n).map f).sum = ∑ i in Finset.range n, f (a + (i : ℤ)) := by
  unfold days_from
  rw [List.map_map]
  exact list_range_map_sum _ n

theorem days_from_sum_Icc (f : ℤ → ℚ) (a b : ℤ) :
    ((days_from a ((b + 1 - a).toNat)).map f).sum = ∑ i in Finset.Icc a b, f i := by
  rw [days_from_sum, sum_Icc_int]

theorem foldl_days_from_eq_scan (dd : ℤ → ℚ × ℚ) (lb : ℤ) (n : ℕ) :
    (days_from lb n).foldl (restart_step dd) (0, none) = scan_state dd lb n := by
  induction n with
  | zero => rfl
  | succ n ih =>
      have hsplit : days_from lb (n + 1) = days_from lb n ++ [lb + (n : ℤ)] := by
        unfold days_from
        rw [List.range_succ, List.map_append]
        rfl
      rw [hsplit, List.foldl_append, ih]
      rfl

theorem streak_start_succ (dd : ℤ → ℚ × ℚ) (lb : ℤ) (n : ℕ) :
    streak_start dd lb (n + 1) =
      if (dd (lb + (n : ℤ))).1 ≤ onEps then streak_start dd lb n else n + 1 :=
  rfl

theorem streak_start_le (dd : ℤ → ℚ × ℚ) (lb : ℤ) (n : ℕ) :
    streak_start dd lb n ≤ n := by
  induction n with
  | zero => exact le_refl 0
  | succ n ih =>
      rw [streak_start_succ]
      split_ifs
      · omega
      · omega

theorem streak_start_good (dd : ℤ → ℚ × ℚ) (lb : ℤ) (n : ℕ) :
    ∀ k, streak_start dd lb n ≤ k → k < n → (dd (lb + (k : ℤ))).1 ≤ onEps := by
  induction n with
  | zero => intro k _ hk; omega
  | succ n ih =>
      intro k hk1 hk2
      by_cases hon : (dd (lb + (n : ℤ))).1 ≤ onEps
      · rw [streak_start_succ, if_pos hon] at hk1
        rcases Nat.lt_succ_iff_lt_or_eq.mp hk2 with h | h
        · exact ih k hk1 h
        · rw [h]; exact hon
      · rw [streak_start_succ, if_neg hon] at hk1
        omega

theorem streak_start_bad (dd : ℤ → ℚ × ℚ) (lb : ℤ) (n : ℕ) :
    0 < streak_start dd lb n →
    onEps < (dd (lb + ((streak_start dd lb n - 1 : ℕ) : ℤ))).1 := by
  induction n with
  | zero => intro h; simp [streak_start] at h
  | succ n ih =>
      intro h
      by_cases hon : (dd (lb + (n : ℤ))).1 ≤ onEps
      · have heq : streak_start dd lb (n + 1) = streak_start dd lb n := by
          rw [streak_start_succ, if_pos hon]
        rw [heq] at h ⊢
        exact ih h
      · have heq : streak_start dd lb (n + 1) = n + 1 := by
          rw [streak_start_succ, if_neg hon]
        rw [heq]
        push_neg at hon
        simpa using hon

theorem scan_fst (dd : ℤ → ℚ × ℚ) (lb : ℤ) (n : ℕ) :
    (scan_state dd lb n).1 =
      ∑ i in Finset.Ico (streak_start dd lb n) n, (dd (lb + (i : ℤ))).2 := by
  induction n with
  | zero => simp [scan_state, streak_start]
  | succ n ih =>
      by_cases hon : (dd (lb + (n : ℤ))).1 ≤ onEps
      · have h1 : (scan_state dd lb (n + 1)).1 =
            (scan_state dd lb n).1 + (dd (lb + (n : ℤ))).2 := by
          show (restart_step dd (scan_state dd lb n) (lb + (n : ℤ))).1 = _
          unfold restart_step
          rw [if_pos hon]
        have h2 : streak_start dd lb (n + 1) = streak_start dd lb n := by
          rw [streak_start_succ, if_pos hon]
        rw [h1, h2, ih, Finset.sum_Ico_succ_top (streak_start_le dd lb n)]
      · have h1 : (scan_state dd lb (n + 1)).1 = 0 := by
          show (restart_step dd (scan_state dd lb n) (lb + (n : ℤ))).1 = _
          unfold restart_step
          rw [if_neg hon]
        have h2 : streak_start dd lb (n + 1) = n + 1 := by
          rw [streak_start_succ, if_neg hon]
        rw [h1, h2]
        simp

theorem scan_snd_succ (dd : ℤ → ℚ × ℚ) (lb : ℤ) (n : ℕ) :
    (scan_state dd lb (n + 1)).2 =
      if 34 ≤ (scan_state dd lb (n + 1)).1 then some (lb + (n : ℤ))
      else (scan_state dd lb n).2 := rfl

theorem scan_snd_none (dd : ℤ → ℚ × ℚ) (lb : ℤ) (n : ℕ) :
    (scan_state dd lb n).2 = none ↔
      ∀ m, m < n → ¬ scan_qualifies dd lb m := by
  induction n with
  | zero =>
      constructor
      · intro _ m hm; omega
      · intro _; rfl
  | succ n ih =>
      rw [scan_snd_succ]
      by_cases hq : 34 ≤ (scan_state dd lb (n + 1)).1
      · rw [if_pos hq]
        constructor
        · intro h; cases h
        · intro h
          exact absurd hq (h n (by omega))
      · rw [if_neg hq]
        rw [ih]
        constructor
        · intro h m hm hqm
          rcases Nat.lt_succ_iff_lt_or_eq.mp hm with h1 | h1
          · exact h m h1 hqm
          · rw [h1] at hqm
            exact hq hqm
        · intro h m hm
          exact h m (by omega)

theorem scan_snd_some (dd : ℤ → ℚ × ℚ) (lb : ℤ) (n : ℕ) (r : ℤ) :
    (scan_state dd lb n).2 = some r →
      ∃ m, m < n ∧ r = lb + (m : ℤ) ∧ scan_qualifies dd lb m ∧
        ∀ m', m' < n → scan_qualifies dd lb m' → m' ≤ m := by
  induction n with
  | zero => intro h; cases h
  | succ n ih =>
      rw [scan_snd_succ]
      by_cases hq : 34 ≤ (scan_state dd lb (n + 1)).1
      · rw [if_pos hq]
        intro h
        injection h with h
        exact ⟨n, by omega, h.symm, hq, fun m' _ _ => by omega⟩
      · rw [if_neg hq]
        intro h
        obtain ⟨m, hm, hr, hqm, hmax⟩ := ih h
        refine ⟨m, by omega, hr, hqm, ?_⟩
        intro m' hm' hqm'
        rcases Nat.lt_succ_iff_lt_or_eq.mp hm' with h1 | h1
        · exact hmax m' h1 hqm'
        · rw [h1] at hqm'
          exact absurd hqm' hq

theorem qualifies_iff (dd : ℤ → ℚ × ℚ) (lb : ℤ)
    (hoff : ∀ d, 0 ≤ (dd d).2) (m : ℕ) :
    scan_qualifies dd lb m ↔ ∃ j : ℤ, on_streak_ge_34 dd lb (lb + (m : ℤ)) j := by
  unfold scan_qualifies
  rw [scan_fst]
  constructor
  · intro hsum
    set ss := streak_start dd lb (m + 1) with hss
    have hss_le : ss ≤ m + 1 := streak_start_le dd lb (m + 1)
    have hss_le_m : ss ≤ m := by
      by_contra hc
      have hss_eq : ss = m + 1 := by omega
      rw [hss_eq, Finset.Ico_self, Finset.sum_empty] at hsum
      norm_num at hsum
    refine ⟨lb + (ss : ℤ), by omega, by omega, ?_, ?_⟩
    · intro i hi1 hi2
      have hk : ∃ k : ℕ, i = lb + (k : ℤ) ∧ ss ≤ k ∧ k < m + 1 := by
        refine ⟨(i - lb).toNat, ?_, ?_, ?_⟩ <;> omega
      obtain ⟨k, rfl, hk1, hk2⟩ := hk
      exact streak_start_good dd lb (m + 1) k hk1 hk2
    · rw [sum_Icc_int]
      have hcount : ((lb + (m : ℤ)) + 1 - (lb + (ss : ℤ))).toNat = (m + 1) - ss := by
        omega
      rw [hcount]
      rw [Finset.sum_Ico_eq_sum_range] at hsum
      refine le_trans hsum (le_of_eq (Finset.sum_congr rfl ?_))
      intro i _
      congr 1
      push_cast
      ring
  · rintro ⟨j, hj1, hj2, hgood, hsum⟩
    set ss := streak_start dd lb (m + 1) with hss
    have hss_le : ss ≤ m + 1 := streak_start_le dd lb (m + 1)
    have hjn : ∃ jn : ℕ, j = lb + (jn : ℤ) ∧ jn ≤ m := by
      refine ⟨(j - lb).toNat, ?_, ?_⟩ <;> omega
    obtain ⟨jn, rfl, hjn_m⟩ := hjn
    have hss_jn : ss ≤ jn := by
      by_contra hc
      push_neg at hc
      have hpos : 0 < ss := by omega
      have hbad := streak_start_bad dd lb (m + 1) hpos
      have hgood2 := hgood (lb + ((ss - 1 : ℕ) : ℤ)) (by omega) (by omega)
      linarith
    rw [sum_Icc_int] at hsum
    have hcount : ((lb + (m : ℤ)) + 1 - (lb + (jn : ℤ))).toNat = (m + 1) - jn := by
      omega
    rw [hcount] at hsum
    have hconv : ∑ i in Finset.range ((m + 1) - jn),
        (dd ((lb + (jn : ℤ)) + (i : ℤ))).2 =
        ∑ i in Finset.Ico jn (m + 1), (dd (lb + (i : ℤ))).2 := by
      rw [Finset.sum_Ico_eq_sum_range]
      refine Finset.sum_congr rfl ?_
      intro i _
      congr 1
      push_cast
      ring
    rw [hconv] at hsum
    refine le_trans hsum (Finset.sum_le_sum_of_subset_of_nonneg ?_ ?_)
    · exact Finset.Ico_subset_Ico hss_jn (le_refl _)
    · intro i _ _
      exact hoff _

theorem day_totals_nonneg_cent (entries : List LogEntry)
    (h : ∀ e ∈ entries, 0 ≤ e.duration_hours ∧ isCent e.duration_hours) :
    (0 ≤ (day_totals entries).1 ∧ 0 ≤ (day_totals entries).2) ∧
    (isCent (day_totals entries).1 ∧ isCent (day_totals entries).2) := by
  have key : ∀ (l : List LogEntry) (acc : ℚ × ℚ),
      (∀ e ∈ l, 0 ≤ e.duration_hours ∧ isCent e.duration_hours) →
      0 ≤ acc.1 → 0 ≤ acc.2 → isCent acc.1 → isCent acc.2 →
      (0 ≤ (l.foldl
          (fun acc e =>
            if e.status = DutyStatus.driving ∨
                e.status = DutyStatus.on_duty_not_driving then
              (acc.1 + e.duration_hours, acc.2)
            else (acc.1, acc.2 + e.duration_hours)) acc).1 ∧
        0 ≤ (l.foldl
          (fun acc e =>
            if e.status = DutyStatus.driving ∨
                e.status = DutyStatus.on_duty_not_driving then
              (acc.1 + e.duration_hours, acc.2)
            else (acc.1, acc.2 + e.duration_hours)) acc).2) ∧
      (isCent (l.foldl
          (fun acc e =>
            if e.status = DutyStatus.driving ∨
                e.status = DutyStatus.on_duty_not_driving then
              (acc.1 + e.duration_hours, acc.2)
            else (acc.1, acc.2 + e.duration_hours)) acc).1 ∧
        isCent (l.foldl
          (fun acc e =>
            if e.status = DutyStatus.driving ∨
                e.status = DutyStatus.on_duty_not_driving then
              (acc.1 + e.duration_hours, acc.2)
            else (acc.1, acc.2 + e.duration_hours)) acc).2) := by
    intro l
    induction l with
    | nil => intro acc _ h1 h2 h3 h4; exact ⟨⟨h1, h2⟩, h3, h4⟩
    | cons a t ih =>
        intro acc hall h1 h2 h3 h4
        have ha := hall a (List.mem_cons_self a t)
        have ht : ∀ e ∈ t, 0 ≤ e.duration_hours ∧ isCent e.duration_hours :=
          fun e he => hall e (List.mem_cons_of_mem a he)
        rw [List.foldl_cons]
        by_cases hs : a.status = DutyStatus.driving ∨
            a.status = DutyStatus.on_duty_not_driving
        · rw [if_pos hs]
          exact ih _ ht (by simp; linarith [ha.1]) h2
            (isCent_add h3 ha.2) h4
        · rw [if_neg hs]
          exact ih _ ht h1 (by simp; linarith [ha.1]) h3
            (isCent_add h4 ha.2)
  unfold day_totals
  exact key entries (0, 0) h (le_refl 0) (le_refl 0)
    ⟨0, by norm_num⟩ ⟨0, by norm_num⟩

/-- C1: `compute_cycle_remaining` scans the 11 days from 10 days before the
as-of date through the as-of date, and (for histories whose entry durations
are the nonnegative two-decimal values the data model stores): the recorded
restart day, if any, is the latest day of the scanned range on which a
streak of consecutive days with on-duty total at most 1e-6 has accumulated
at least 34.0 off-duty hours (and no day qualifies when none is recorded);
the summation start is the day after the restart day when that day is on or
after the nominal window start `as_of - 7`, and the nominal window start
otherwise; `used_hours` is the sum of the per-day on-duty totals (durations
of `driving` and `on_duty_not_driving` entries) from the summation start
through the as-of date; and `remaining_hours = max(0, 70 - used_hours)`. -/
theorem claim_c1_cycle_remaining (history : ℤ → List LogEntry) (as_of_date : ℤ)
    (hdur : ∀ d : ℤ, ∀ e ∈ history d,
      0 ≤ e.duration_hours ∧ isCent e.duration_hours) :
    ((compute_cycle_remaining history as_of_date).restart_detected =
      (compute_cycle_remaining history as_of_date).restart_end_day.isSome) ∧
    (∀ r, (compute_cycle_remaining history as_of_date).restart_end_day = some r →
      is_restart_day (fun d => day_totals (history d)) (as_of_date - 10)
        as_of_date r ∧
      ∀ d, is_restart_day (fun d => day_totals (history d)) (as_of_date - 10)
        as_of_date d → d ≤ r) ∧
    ((compute_cycle_remaining history as_of_date).restart_end_day = none →
      ∀ d, ¬ is_restart_day (fun d => day_totals (history d)) (as_of_date - 10)
        as_of_date d) ∧
    ((compute_cycle_remaining history as_of_date).window_start =
      match (compute_cycle_remaining history as_of_date).restart_end_day with
      | some r => if as_of_date - 7 ≤ r then r + 1 else as_of_date - 7
      | none => as_of_date - 7) ∧
    ((compute_cycle_remaining history as_of_date).used_hours =
      ∑ i in Finset.Icc (compute_cycle_remaining history as_of_date).window_start
        as_of_date, (day_totals (history i)).1) ∧
    ((compute_cycle_remaining history as_of_date).remaining_hours =
      max 0 (70 - (compute_cycle_remaining history as_of_date).used_hours)) := by
  set dd := fun d => day_totals (history d) with hdd
  set lb := as_of_date - 10 with hlb
  have hoff : ∀ d, 0 ≤ (dd d).2 :=
    fun d => ((day_totals_nonneg_cent (history d) (hdur d)).1).2
  have hcent_on : ∀ d, isCent (dd d).1 :=
    fun d => ((day_totals_nonneg_cent (history d) (hdur d)).2).1
  have hrest : (compute_cycle_remaining history as_of_date).restart_end_day =
      (scan_state dd lb 11).2 := by
    show ((days_from lb 11).foldl (restart_step dd) (0, none)).2 = _
    rw [foldl_days_from_eq_scan]
  have hdetect : (compute_cycle_remaining history as_of_date).restart_detected =
      (compute_cycle_remaining history as_of_date).restart_end_day.isSome := rfl
  have hwindow : (compute_cycle_remaining history as_of_date).window_start =
      match (compute_cycle_remaining history as_of_date).restart_end_day with
      | some r => if as_of_date - 7 ≤ r then r + 1 else as_of_date - 7
      | none => as_of_date - 7 := by
    show (match ((days_from lb 11).foldl (restart_step dd) (0, none)).2 with
      | some r => if as_of_date - 7 ≤ r then r + 1 else as_of_date - 7
      | none => as_of_date - 7) = _
    rw [foldl_days_from_eq_scan, hrest]
  -- the raw (unrounded) used-hours sum and its cent property
  have hused_def : (compute_cycle_remaining history as_of_date).used_hours =
      round2 (((days_from
          (compute_cycle_remaining history as_of_date).window_start
          (as_of_date + 1 -
            (compute_cycle_remaining history as_of_date).window_start).toNat).map
        (fun d => (dd d).1)).sum) := rfl
  have hcent_sum : isCent (((days_from
      (compute_cycle_remaining history as_of_date).window_start
      (as_of_date + 1 -
        (compute_cycle_remaining history as_of_date).window_start).toNat).map
      (fun d => (dd d).1)).sum) := by
    apply isCent_listSum
    intro x hx
    rw [List.mem_map] at hx
    obtain ⟨d, _, rfl⟩ := hx
    exact hcent_on d
  have hused : (compute_cycle_remaining history as_of_date).used_hours =
      ∑ i in Finset.Icc
        (compute_cycle_remaining history as_of_date).window_start as_of_date,
        (dd i).1 := by
    rw [hused_def, round2_cent hcent_sum, days_from_sum_Icc]
  have hrem : (compute_cycle_remaining history as_of_date).remaining_hours =
      max 0 (70 - (compute_cycle_remaining history as_of_date).used_hours) := by
    have hraw : (compute_cycle_remaining history as_of_date).remaining_hours =
        round2 (max 0 (70 - (((days_from
            (compute_cycle_remaining history as_of_date).window_start
            (as_of_date + 1 -
              (compute_cycle_remaining history as_of_date).window_start).toNat).map
          (fun d => (dd d).1)).sum))) := rfl
    rw [hraw, round2_cent (isCent_max ⟨0, by norm_num⟩
      (isCent_sub ⟨7000, by norm_num⟩ hcent_sum)), hused_def,
      round2_cent hcent_sum]
  refine ⟨hdetect, ?_, ?_, hwindow, by rw [hused], hrem⟩
  · intro r hr
    rw [hrest] at hr
    obtain ⟨m, hm, hrm, hqm, hmax⟩ := scan_snd_some dd lb 11 r hr
    constructor
    · refine ⟨by omega, by omega, ?_⟩
      rw [hrm]
      exact (qualifies_iff dd lb hoff m).mp hqm
    · intro d hd
      obtain ⟨hd1, hd2, hex⟩ := hd
      have hm' : ∃ m' : ℕ, d = lb + (m' : ℤ) ∧ m' < 11 := by
        refine ⟨(d - lb).toNat, ?_, ?_⟩ <;> omega
      obtain ⟨m', rfl, hm'11⟩ := hm'
      have hq' : scan_qualifies dd lb m' :=
        (qualifies_iff dd lb hoff m').mpr hex
      have := hmax m' hm'11 hq'
      omega
  · intro h d hd
    rw [hrest] at h
    obtain ⟨hd1, hd2, hex⟩ := hd
    have hm' : ∃ m' : ℕ, d = lb + (m' : ℤ) ∧ m' < 11 := by
      refine ⟨(d - lb).toNat, ?_, ?_⟩ <;> omega
    obtain ⟨m', rfl, hm'11⟩ := hm'
    have hq' : scan_qualifies dd lb m' :=
      (qualifies_iff dd lb hoff m').mpr hex
    exact (scan_snd_none dd lb 11).mp h m' hm'11 hq'

/-- Witness for C1 at a concrete input: an empty history (no entries on any
day). -/
theorem claim_c1_cycle_remaining_witness :
    (compute_cycle_remaining (fun _ => []) 0).remaining_hours =
      max 0 (70 - (compute_cycle_remaining (fun _ => []) 0).used_hours) :=
  (claim_c1_cycle_remaining (fun _ => []) 0
    (fun _ e he => absurd he (List.not_mem_nil e))).2.2.2.2.2

end TripLogger
